import Mathlib

/-!
# streamrproxyclient: the Go binding of the Streamr proxy client

A shallow embedding of `streamrproxyclient.go`.  The Go file is a binding: every
operation marshals its arguments, calls one wrapper of the native library, and
converts the `ProxyResult` the library hands back.

Conventions of the embedding.

* A Go `string` is a Lean `String`.  A C string (`char*`) is represented by its
  content, the characters before the terminating NUL, also a `String`.
* A C array given by a pointer and a count is a `List`; the count is its length.
  A nil pointer is `none`.
* A Go pointer that may be nil (`*Proxy`, `*ProxyClientError`, `*ProxyClient`) is an
  `Option`.
* `C.uint64_t` handles and counts are natural numbers.
* The native library is not part of the Go file.  Each operation takes the wrapper it
  calls as a parameter acting on a library state `σ`; the operation returns its Go
  value together with the new library state and the list of wrapper calls it made, in
  order.
* A Go run-time panic is a value of `GoPanic`.
-/

namespace StreamrProxyClient

/-! ## Values that cross the boundary -/

/-- The C struct `Proxy`: two C strings. -/
structure CProxy where
  websocketUrl : String
  ethereumAddress : String
  deriving DecidableEq, Repr

/-- The C struct `Error`: message, code, and a pointer to a `Proxy` that may be null. -/
structure CError where
  message : String
  code : String
  proxy : Option CProxy
  deriving DecidableEq, Repr

/-- The C struct `ProxyResult`: the array `errors` of `numErrors` entries and the array
`successful` of `numSuccessful` entries. -/
structure CProxyResult where
  errors : List CError
  successful : List CProxy
  deriving DecidableEq, Repr

/-- Field `numErrors` of a `ProxyResult`. -/
@[reducible] def CProxyResult.numErrors (r : CProxyResult) : Nat := r.errors.length

/-- Field `numSuccessful` of a `ProxyResult`. -/
@[reducible] def CProxyResult.numSuccessful (r : CProxyResult) : Nat := r.successful.length

/-- The NUL character, which terminates a C string. -/
def NUL : Char := Char.ofNat 0

/-- Function `C.CString`: the Go string is copied and a NUL appended, so what C code sees
as the string is the part before the first NUL of the Go string. -/
def CString (s : String) : String := String.mk (s.toList.takeWhile (fun c => c != NUL))

/-- Function `C.GoString`: the content of the C string as a Go string. -/
def GoString (c : String) : String := c

/-! ## Error codes -/

def ERROR_INVALID_ETHEREUM_ADDRESS : String := "INVALID_ETHEREUM_ADDRESS"
def ERROR_INVALID_STREAM_PART_ID : String := "INVALID_STREAM_PART_ID"
def ERROR_PROXY_CLIENT_NOT_FOUND : String := "PROXY_CLIENT_NOT_FOUND"
def ERROR_INVALID_PROXY_URL : String := "INVALID_PROXY_URL"
def ERROR_NO_PROXIES_DEFINED : String := "NO_PROXIES_DEFINED"
def ERROR_PROXY_CONNECTION_FAILED : String := "PROXY_CONNECTION_FAILED"
def ERROR_PROXY_BROADCAST_FAILED : String := "PROXY_BROADCAST_FAILED"

/-! ## Go types -/

/-- The Go struct `Proxy`. -/
structure Proxy where
  WebsocketUrl : String
  EthereumAddress : String
  deriving DecidableEq, Repr

/-- Function `NewProxy`: builds a `Proxy` from its two fields. -/
def NewProxy (websocketUrl ethereumAddress : String) : Proxy :=
  { WebsocketUrl := websocketUrl, EthereumAddress := ethereumAddress }

/-- Method `Proxy.Equals`, on the two dereferenced values. -/
def Proxy.Equals (p other : Proxy) : Bool :=
  p.WebsocketUrl == other.WebsocketUrl && p.EthereumAddress == other.EthereumAddress

/-- The Go struct `ProxyClientError`; `Proxy` is a pointer that may be nil. -/
structure ProxyClientError where
  Message : String
  Code : String
  Proxy : Option Proxy
  deriving DecidableEq, Repr

/-- Function `NewProxyClientError`: converts a C `Error`. -/
def NewProxyClientError (cError : CError) : ProxyClientError :=
  let proxy : Option Proxy :=
    match cError.proxy with
    | some cp => some (NewProxy (GoString cp.websocketUrl) (GoString cp.ethereumAddress))
    | none => none
  { Message := GoString cError.message, Code := GoString cError.code, Proxy := proxy }

/-- The Go struct `ProxyClientResult`: two slices of pointers. -/
structure ProxyClientResult where
  Errors : List (Option ProxyClientError)
  Successful : List (Option Proxy)
  deriving DecidableEq, Repr

/-- Function `NewProxyClientResult`: converts a C `ProxyResult`.  Both slices are allocated with
`make` (every entry nil), then one loop per slice assigns entry `i` from entry `i` of
the C array, for `i` from `0` up to the count. -/
def NewProxyClientResult (proxyResultPtr : CProxyResult) : ProxyClientResult :=
  let result : ProxyClientResult :=
    { Errors := List.replicate proxyResultPtr.numErrors none
      Successful := List.replicate proxyResultPtr.numSuccessful none }
  let result := (List.finRange proxyResultPtr.numErrors).foldl
    (fun (res : ProxyClientResult) i =>
      let cError := proxyResultPtr.errors.get i
      { res with Errors := res.Errors.set i.val (some (NewProxyClientError cError)) })
    result
  let result := (List.finRange proxyResultPtr.numSuccessful).foldl
    (fun (res : ProxyClientResult) i =>
      let cProxy := proxyResultPtr.successful.get i
      let proxy := NewProxy (GoString cProxy.websocketUrl) (GoString cProxy.ethereumAddress)
      { res with Successful := res.Successful.set i.val (some proxy) })
    result
  result

/-- The Go struct `ProxyClient`. -/
structure ProxyClient where
  ownEthereumAddress : String
  streamPartId : String
  clientHandle : Nat
  deriving DecidableEq, Repr

/-! ## Calls into the native library -/

/-- One call of a wrapper of the native library, with the arguments passed. -/
inductive CCall where
  | proxyClientNewWrapper (ownEthereumAddress streamPartId : String)
  | proxyClientDeleteWrapper (clientHandle : Nat)
  | proxyClientConnectWrapper (clientHandle : Nat) (proxies : Option (List CProxy))
      (numProxies : Nat)
  | proxyClientPublishWrapper (clientHandle : Nat) (content : List (Fin 256))
      (contentLength : Nat) (ethereumPrivateKey : Option String)
  | proxyClientResultDeleteWrapper (proxyResult : CProxyResult)
  deriving DecidableEq, Repr

/-- A Go run-time panic. -/
inductive GoPanic where
  | indexOutOfRange (index length : Nat)
  deriving DecidableEq, Repr

deriving instance DecidableEq for Except

/-- What running an operation yields: the Go return value, the library state after it, and
the wrapper calls made, in order. -/
structure Outcome (σ α : Type) where
  ret : α
  lib : σ
  calls : List CCall

/-- The address of element `i` of a Go slice, `&xs[i]`: the slice is bounds-checked; the
pointer obtained gives C code the elements from `i` on. -/
def addrOf {α : Type} (xs : List α) (i : Nat) : Except GoPanic (List α) :=
  if i < xs.length then .ok (xs.drop i) else .error (.indexOutOfRange i xs.length)

/-! ## Operations of the client -/

/-- Function `NewProxyClient`, given the library's `proxyClientNewWrapper`, which returns the result
it stores through the out-parameter and the handle. -/
def NewProxyClient {σ : Type} (newWrapper : σ → String → String → σ × CProxyResult × Nat)
    (lib : σ) (ownEthereumAddress streamPartId : String) :
    Outcome σ (Option ProxyClient × Option ProxyClientError) :=
  let a := CString ownEthereumAddress
  let s := CString streamPartId
  let out := newWrapper lib a s
  let result := out.2.1
  let client : ProxyClient :=
    { ownEthereumAddress := ownEthereumAddress, streamPartId := streamPartId,
      clientHandle := out.2.2 }
  let calls := [CCall.proxyClientNewWrapper a s]
  if h : result.numErrors > 0 then
    let firstError := result.errors.get ⟨0, h⟩
    { ret := (none, some (NewProxyClientError firstError)), lib := out.1, calls := calls }
  else
    { ret := (some client, none), lib := out.1
      calls := calls ++ [CCall.proxyClientResultDeleteWrapper result] }

/-- Method `ProxyClient.Close`, given the library's `proxyClientDeleteWrapper`. -/
def ProxyClient.Close {σ : Type} (deleteWrapper : σ → Nat → σ × CProxyResult)
    (lib : σ) (p : ProxyClient) : Outcome σ (Option ProxyClientError) :=
  let out := deleteWrapper lib p.clientHandle
  let result := out.2
  let calls := [CCall.proxyClientDeleteWrapper p.clientHandle]
  if h : result.numErrors > 0 then
    let firstError := result.errors.get ⟨0, h⟩
    { ret := some (NewProxyClientError firstError), lib := out.1, calls := calls }
  else
    { ret := none, lib := out.1
      calls := calls ++ [CCall.proxyClientResultDeleteWrapper result] }

/-- The loop of `Connect` that fills `proxyArray`: allocated with `make`, then entry `i`
is assigned from `proxies[i]`, both fields through `C.CString`. -/
def fillProxyArray (proxies : List Proxy) : List CProxy :=
  let proxyArray : List CProxy :=
    List.replicate proxies.length { websocketUrl := "", ethereumAddress := "" }
  (List.finRange proxies.length).foldl
    (fun (arr : List CProxy) i =>
      let proxy := proxies.get i
      arr.set i.val
        { websocketUrl := CString proxy.WebsocketUrl
          ethereumAddress := CString proxy.EthereumAddress })
    proxyArray

/-- Method `ProxyClient.Connect`, given the library's `proxyClientConnectWrapper`. -/
def ProxyClient.Connect {σ : Type}
    (connectWrapper : σ → Nat → Option (List CProxy) → Nat → σ × CProxyResult)
    (lib : σ) (p : ProxyClient) (proxies : List Proxy) :
    Outcome σ (Except GoPanic ProxyClientResult) :=
  let numProxies := proxies.length
  let proxyArray : List CProxy := if numProxies > 0 then fillProxyArray proxies else []
  let finish (arg : Option (List CProxy)) : Outcome σ (Except GoPanic ProxyClientResult) :=
    let out := connectWrapper lib p.clientHandle arg numProxies
    let res := NewProxyClientResult out.2
    { ret := .ok res, lib := out.1
      calls := [CCall.proxyClientConnectWrapper p.clientHandle arg numProxies,
                CCall.proxyClientResultDeleteWrapper out.2] }
  if numProxies > 0 then
    match addrOf proxyArray 0 with
    | .ok ptr => finish (some ptr)
    | .error e => { ret := .error e, lib := lib, calls := [] }
  else
    finish none

/-- Method `ProxyClient.Publish`, given the library's `proxyClientPublishWrapper`.  Both branches
take `&data[0]` before the call. -/
def ProxyClient.Publish {σ : Type}
    (publishWrapper : σ → Nat → List (Fin 256) → Nat → Option String → σ × CProxyResult)
    (lib : σ) (p : ProxyClient) (data : List (Fin 256)) (ethereumPrivateKey : String) :
    Outcome σ (Except GoPanic ProxyClientResult) :=
  let finish (ptr : List (Fin 256)) (key : Option String) :
      Outcome σ (Except GoPanic ProxyClientResult) :=
    let out := publishWrapper lib p.clientHandle ptr data.length key
    let res := NewProxyClientResult out.2
    { ret := .ok res, lib := out.1
      calls := [CCall.proxyClientPublishWrapper p.clientHandle ptr data.length key,
                CCall.proxyClientResultDeleteWrapper out.2] }
  if ethereumPrivateKey != "" then
    match addrOf data 0 with
    | .ok ptr => finish ptr (some (CString ethereumPrivateKey))
    | .error e => { ret := .error e, lib := lib, calls := [] }
  else
    match addrOf data 0 with
    | .ok ptr => finish ptr none
    | .error e => { ret := .error e, lib := lib, calls := [] }

/-! ## The native library

The library behind the wrappers is not in the Go file.  The definitions of this section
follow the specification of the library (validators, handle table, connect). -/

/-- Modelled from the spec: the hexadecimal characters accepted by the address validator
of the native library, which is missing from the Go file; letters count in both cases. -/
def isHexChar (c : Char) : Bool :=
  c.isDigit || (decide ('a' ≤ c) && decide (c ≤ 'f')) || (decide ('A' ≤ c) && decide (c ≤ 'F'))

/-- Modelled from the spec: `ValidateAddress` of the native library (missing from the Go
file) accepts exactly `0x` followed by exactly 40 hexadecimal characters. -/
def ValidateAddress (s : String) : Bool :=
  s.toList.take 2 == ['0', 'x'] && (s.toList.drop 2).length == 40 &&
    (s.toList.drop 2).all isHexChar

/-- Modelled from the spec: `ValidateStreamPartId` of the native library (missing from the
Go file) enforces the `#<partition-number>` suffix and a non-empty segment before it. -/
def ValidateStreamPartId (s : String) : Bool :=
  let rev := s.toList.reverse
  let partition := rev.takeWhile (fun c => c != '#')
  match rev.dropWhile (fun c => c != '#') with
  | _ :: before => !before.isEmpty && !partition.isEmpty && partition.all Char.isDigit
  | [] => false

/-- Modelled from the spec: `ValidateProxyUrl` of the native library (missing from the Go
file) accepts a URL with scheme `ws` or `wss` and a non-empty host. -/
def ValidateProxyUrl (s : String) : Bool :=
  let hostOf (rest : List Char) : List Char :=
    rest.takeWhile (fun c => c != '/' && c != ':' && c != '?' && c != '#')
  let cs := s.toList
  (cs.take 5 == "ws://".toList && !(hostOf (cs.drop 5)).isEmpty) ||
    (cs.take 6 == "wss://".toList && !(hostOf (cs.drop 6)).isEmpty)

/-- Modelled from the spec: the transport provider the native library consumes, missing
from the Go file.  `handshake t e` tells whether the handshake attempted at logical time
`t` with endpoint `e` establishes a connection. -/
structure Transport where
  handshake : Nat → CProxy → Bool

/-- Modelled from the spec: one client of the native library's handle table (missing
from the Go file): its handle, its identity and its open connections. -/
structure LibClient where
  handle : Nat
  ownAddress : String
  streamPartId : String
  connections : List CProxy
  deriving DecidableEq, Repr

/-- Modelled from the spec: the state of the native library (missing from the Go file):
the next handle to give out, the live clients, and the logical time of the transport. -/
structure LibState where
  nextHandle : Nat
  clients : List LibClient
  clock : Nat
  deriving DecidableEq, Repr

/-- Modelled from the spec: the native library right after initialisation; handle `0` is
never given out. -/
def LibState.init : LibState := { nextHandle := 1, clients := [], clock := 0 }

/-- Modelled from the spec: whether a handle names a client that still exists in the
native library's table. -/
def LibState.live (st : LibState) (handle : Nat) : Bool :=
  st.clients.any (fun c => c.handle == handle)

/-- Modelled from the spec: a request-level error of the native library, with no proxy.
The spec fixes no message text; the code is used for it. -/
def globalError (code : String) : CError := { message := code, code := code, proxy := none }

/-- Modelled from the spec: a per-endpoint error of the native library, attributed to the
endpoint.  The spec fixes no message text; the code is used for it. -/
def proxyError (code : String) (e : CProxy) : CError :=
  { message := code, code := code, proxy := some e }

/-- Modelled from the spec: `proxyClientNew` of the native library (missing from the Go
file).  Both fields are validated, the address first; the first failure is returned with
handle `0` and no client is created.  Otherwise a client with an empty connection set is
registered under a fresh handle. -/
def proxyClientNew (st : LibState) (ownEthereumAddress streamPartId : String) :
    LibState × CProxyResult × Nat :=
  if !ValidateAddress ownEthereumAddress then
    (st, { errors := [globalError ERROR_INVALID_ETHEREUM_ADDRESS], successful := [] }, 0)
  else if !ValidateStreamPartId streamPartId then
    (st, { errors := [globalError ERROR_INVALID_STREAM_PART_ID], successful := [] }, 0)
  else
    ({ st with
        nextHandle := st.nextHandle + 1
        clients := { handle := st.nextHandle, ownAddress := ownEthereumAddress,
                     streamPartId := streamPartId, connections := [] } :: st.clients },
     { errors := [], successful := [] }, st.nextHandle)

/-- Modelled from the spec: `proxyClientDelete` of the native library (missing from the Go
file), which `Close` calls.  A client that exists is removed from the table together with
its connections; the model's teardown of a connection never fails, so the result is empty.
Close is idempotent: a handle that no longer exists has nothing left to tear down, and
deleting it again leaves the table as it is and reports no error. -/
def proxyClientDelete (st : LibState) (handle : Nat) : LibState × CProxyResult :=
  if st.live handle then
    ({ st with clients := st.clients.filter (fun c => c.handle != handle) },
     { errors := [], successful := [] })
  else
    (st, { errors := [], successful := [] })

/-- Modelled from the spec: the attempt on one endpoint made by the native library's
connect (missing from the Go file): address validation, then URL validation, then the
handshake.  Returns the error, or `none` on success, and the logical time afterwards;
only a handshake advances the time. -/
def attempt (T : Transport) (t : Nat) (e : CProxy) : Option CError × Nat :=
  if !ValidateAddress e.ethereumAddress then
    (some (proxyError ERROR_INVALID_ETHEREUM_ADDRESS e), t)
  else if !ValidateProxyUrl e.websocketUrl then
    (some (proxyError ERROR_INVALID_PROXY_URL e), t)
  else if T.handshake t e then
    (none, t + 1)
  else
    (some (proxyError ERROR_PROXY_CONNECTION_FAILED e), t + 1)

/-- Modelled from the spec: the attempts of the native library's connect on the endpoints
in the order supplied, each independent of the others' outcome.  Returns the logical time
afterwards, the errors and the successes, each in the order supplied. -/
def attemptAll (T : Transport) (t : Nat) : List CProxy → Nat × List CError × List CProxy
  | [] => (t, [], [])
  | e :: es =>
    match attempt T t e with
    | (some err, t1) =>
      let rest := attemptAll T t1 es
      (rest.1, err :: rest.2.1, rest.2.2)
    | (none, t1) =>
      let rest := attemptAll T t1 es
      (rest.1, rest.2.1, e :: rest.2.2)

/-- Modelled from the spec: `proxyClientConnect` of the native library (missing from the
Go file).  The handle is checked first (`PROXY_CLIENT_NOT_FOUND`); a count of zero is the
request-level error `NO_PROXIES_DEFINED`; otherwise the `numProxies` endpoints of the array
are attempted in order and the new connections are added to the client's. -/
def proxyClientConnect (T : Transport) (st : LibState) (handle : Nat)
    (proxies : Option (List CProxy)) (numProxies : Nat) : LibState × CProxyResult :=
  if !st.live handle then
    (st, { errors := [globalError ERROR_PROXY_CLIENT_NOT_FOUND], successful := [] })
  else if numProxies == 0 then
    (st, { errors := [globalError ERROR_NO_PROXIES_DEFINED], successful := [] })
  else
    let out := attemptAll T st.clock ((proxies.getD []).take numProxies)
    ({ st with
        clock := out.1
        clients := st.clients.map (fun c =>
          if c.handle == handle then { c with connections := c.connections ++ out.2.2 }
          else c) },
     { errors := out.2.1, successful := out.2.2 })

/-! ## Auxiliary definitions used in the statements -/

/-- The Go `Proxy` a C `Proxy` converts to. -/
def proxyOfC (c : CProxy) : Proxy :=
  NewProxy (GoString c.websocketUrl) (GoString c.ethereumAddress)

/-- The C `Proxy` that `Connect` builds from a Go `Proxy`: both fields through
`C.CString`. -/
def cProxyOf (p : Proxy) : CProxy :=
  { websocketUrl := CString p.WebsocketUrl, ethereumAddress := CString p.EthereumAddress }

/-- What comes back of a Go `Proxy` sent through `C.CString` and returned through
`C.GoString`: each field cut before its first NUL character. -/
def cImage (p : Proxy) : Proxy := proxyOfC (cProxyOf p)

/-- The entries of `xs` whose flag in `mask` is `b`, in the order of `xs`. -/
def pick {α : Type} (b : Bool) (xs : List α) (mask : List Bool) : List α :=
  ((xs.zip mask).filter (fun x => x.2 == b)).map Prod.fst

/-- A transport on which no handshake establishes a connection: every endpoint is
unreachable. -/
def unreachable : Transport := { handshake := fun _ _ => false }

/-- The library state with one client, of handle `1`, as left by the construction of a
client on the freshly initialised library. -/
def oneClient : LibState :=
  (NewProxyClient proxyClientNew LibState.init "0x1234567890123456789012345678901234567890"
    "0xa000000000000000000000000000000000000000#01").lib

/-- The client of handle `1` constructed on the freshly initialised library. -/
def firstClient : ProxyClient :=
  { ownEthereumAddress := "0x1234567890123456789012345678901234567890"
    streamPartId := "0xa000000000000000000000000000000000000000#01"
    clientHandle := 1 }

/-! ## Loops that fill a slice allocated with `make` -/

theorem foldl_set_length {β : Type} {n : Nat} (g : Fin n → β) (l : List (Fin n))
    (out : List β) :
    (l.foldl (fun acc i => acc.set i.val (g i)) out).length = out.length := by
  induction l generalizing out with
  | nil => rfl
  | cons i l ih => simp [List.foldl_cons, ih]

theorem foldl_set_keep {β : Type} {n : Nat} (g : Fin n → β) (l : List (Fin n))
    (out : List β) (j : Fin n) (h : out[j.val]? = some (g j)) :
    (l.foldl (fun acc i => acc.set i.val (g i)) out)[j.val]? = some (g j) := by
  induction l generalizing out with
  | nil => simpa using h
  | cons i l ih =>
    rw [List.foldl_cons]
    apply ih
    by_cases hij : i.val = j.val
    · have hi : i = j := Fin.ext hij
      subst hi
      have hlt : i.val < out.length := by
        by_contra hc
        rw [List.getElem?_eq_none (Nat.le_of_not_lt hc)] at h
        cases h
      rw [List.getElem?_set_eq_of_lt _ hlt]
    · rw [List.getElem?_set_ne hij]
      exact h

theorem foldl_set_written {β : Type} {n : Nat} (g : Fin n → β) (l : List (Fin n))
    (out : List β) (j : Fin n) (hlen : n ≤ out.length) (hmem : j ∈ l) :
    (l.foldl (fun acc i => acc.set i.val (g i)) out)[j.val]? = some (g j) := by
  induction l generalizing out with
  | nil => cases hmem
  | cons i l ih =>
    rw [List.foldl_cons]
    rcases List.mem_cons.mp hmem with hji | hjl
    · subst hji
      apply foldl_set_keep
      rw [List.getElem?_set_eq_of_lt _ (Nat.lt_of_lt_of_le j.isLt hlen)]
    · exact ih _ (by simpa using hlen) hjl

theorem foldl_set_eq_map {α β : Type} (xs : List α) (h : α → β) (out : List β)
    (hlen : out.length = xs.length) :
    (List.finRange xs.length).foldl (fun acc i => acc.set i.val (h (xs.get i))) out
      = xs.map h := by
  apply List.ext_getElem?
  intro j
  by_cases hj : j < xs.length
  · have := foldl_set_written (fun i => h (xs.get i)) (List.finRange xs.length) out ⟨j, hj⟩
      (Nat.le_of_eq hlen.symm) (List.mem_finRange _)
    simp only at this
    rw [this, List.getElem?_map, List.getElem?_eq_getElem hj]
    rfl
  · have hj2 : xs.length ≤ j := Nat.le_of_not_lt hj
    rw [List.getElem?_eq_none, List.getElem?_eq_none]
    · simpa using hj2
    · rw [foldl_set_length, hlen]; exact hj2

theorem foldl_set_Errors {n : Nat} (g : Fin n → Option ProxyClientError) (l : List (Fin n))
    (res : ProxyClientResult) :
    l.foldl (fun (r : ProxyClientResult) i => { r with Errors := r.Errors.set i.val (g i) }) res
      = { Errors := l.foldl (fun acc i => acc.set i.val (g i)) res.Errors
          Successful := res.Successful } := by
  induction l generalizing res with
  | nil => rfl
  | cons i l ih => rw [List.foldl_cons, ih, List.foldl_cons]

theorem foldl_set_Successful {n : Nat} (g : Fin n → Option Proxy) (l : List (Fin n))
    (res : ProxyClientResult) :
    l.foldl (fun (r : ProxyClientResult) i =>
        { r with Successful := r.Successful.set i.val (g i) }) res
      = { Errors := res.Errors
          Successful := l.foldl (fun acc i => acc.set i.val (g i)) res.Successful } := by
  induction l generalizing res with
  | nil => rfl
  | cons i l ih => rw [List.foldl_cons, ih, List.foldl_cons]

theorem NewProxyClientResult_eq (r : CProxyResult) :
    NewProxyClientResult r =
      { Errors := r.errors.map (fun e => some (NewProxyClientError e))
        Successful := r.successful.map (fun c => some (proxyOfC c)) } := by
  unfold NewProxyClientResult
  simp only [CProxyResult.numErrors, CProxyResult.numSuccessful]
  rw [foldl_set_Errors (fun i => some (NewProxyClientError (r.errors.get i)))]
  rw [foldl_set_Successful (fun i => some (NewProxy (GoString (r.successful.get i).websocketUrl)
    (GoString (r.successful.get i).ethereumAddress)))]
  simp only
  rw [foldl_set_eq_map r.errors (fun e => some (NewProxyClientError e)) _
      (List.length_replicate _ _),
    foldl_set_eq_map r.successful
      (fun c => some (NewProxy (GoString c.websocketUrl) (GoString c.ethereumAddress))) _
      (List.length_replicate _ _)]
  rfl

theorem fillProxyArray_eq (proxies : List Proxy) :
    fillProxyArray proxies = proxies.map (fun p =>
      ({ websocketUrl := CString p.WebsocketUrl
         ethereumAddress := CString p.EthereumAddress } : CProxy)) := by
  unfold fillProxyArray
  exact foldl_set_eq_map proxies
    (fun p => ({ websocketUrl := CString p.WebsocketUrl
                 ethereumAddress := CString p.EthereumAddress } : CProxy))
    _ (List.length_replicate _ _)

/-! ## The conversions -/

/-- C6: `p.Equals(q)` holds exactly when both fields are equal as strings, compared
character by character with no case folding; hence `Equals` is reflexive, symmetric and
transitive, and two proxies whose addresses differ, even only in letter case, are not
equal. -/
theorem Proxy_Equals_iff (p q r : Proxy) :
    (p.Equals q = true ↔
      p.WebsocketUrl = q.WebsocketUrl ∧ p.EthereumAddress = q.EthereumAddress) ∧
    p.Equals p = true ∧
    p.Equals q = q.Equals p ∧
    (p.Equals q = true → q.Equals r = true → p.Equals r = true) ∧
    (p.EthereumAddress.toLower = q.EthereumAddress.toLower →
      p.EthereumAddress ≠ q.EthereumAddress → p.Equals q = false) ∧
    (NewProxy "ws://valid.com" "0x123456789012345678901234567890123456789a").Equals
      (NewProxy "ws://valid.com" "0x123456789012345678901234567890123456789A") = false := by
  have hiff : ∀ x y : Proxy, x.Equals y = true ↔
      x.WebsocketUrl = y.WebsocketUrl ∧ x.EthereumAddress = y.EthereumAddress := by
    intro x y
    simp [Proxy.Equals]
  refine ⟨hiff p q, (hiff p p).mpr ⟨rfl, rfl⟩, ?_, ?_, ?_, by decide⟩
  · cases hpq : p.Equals q <;> cases hqp : q.Equals p <;> try rfl
    · have := (hiff q p).mp hqp
      rw [(hiff p q).mpr ⟨this.1.symm, this.2.symm⟩] at hpq
      cases hpq
    · have := (hiff p q).mp hpq
      rw [(hiff q p).mpr ⟨this.1.symm, this.2.symm⟩] at hqp
      cases hqp
  · intro hpq hqr
    have h1 := (hiff p q).mp hpq
    have h2 := (hiff q r).mp hqr
    exact (hiff p r).mpr ⟨h1.1.trans h2.1, h1.2.trans h2.2⟩
  · intro _ hne
    cases hpq : p.Equals q
    · rfl
    · exact absurd ((hiff p q).mp hpq).2 hne

/-- C8: `NewProxyClientError` copies message and code of the C error; its `Proxy` is
present exactly when the C error carries a proxy, then with that proxy's URL and address;
a C error with no proxy yields a nil `Proxy`. -/
theorem NewProxyClientError_fields (c : CError) :
    (NewProxyClientError c).Message = c.message ∧
    (NewProxyClientError c).Code = c.code ∧
    ((NewProxyClientError c).Proxy.isSome = true ↔ c.proxy.isSome = true) ∧
    (∀ cp, c.proxy = some cp →
      (NewProxyClientError c).Proxy =
        some { WebsocketUrl := cp.websocketUrl, EthereumAddress := cp.ethereumAddress }) ∧
    (c.proxy = none → (NewProxyClientError c).Proxy = none) := by
  refine ⟨rfl, rfl, ?_, ?_, ?_⟩
  · cases h : c.proxy <;> simp [NewProxyClientError, h]
  · intro cp h
    simp [NewProxyClientError, h, NewProxy, GoString]
  · intro h
    simp [NewProxyClientError, h]

/-- C9: `NewProxyClientResult` returns `Errors` of length `numErrors` and `Successful` of
length `numSuccessful`; entry `i` of `Errors` is the conversion of the `i`-th C error and
entry `j` of `Successful` has URL and address of the `j`-th C success; no entry is nil.
As whole slices: `Errors` and `Successful` are the C arrays converted entry by entry. -/
theorem NewProxyClientResult_entries (r : CProxyResult) :
    (NewProxyClientResult r).Errors.length = r.numErrors ∧
    (NewProxyClientResult r).Successful.length = r.numSuccessful ∧
    (∀ i (h : i < r.numErrors),
      (NewProxyClientResult r).Errors[i]? =
        some (some (NewProxyClientError (r.errors.get ⟨i, h⟩)))) ∧
    (∀ j (h : j < r.numSuccessful),
      (NewProxyClientResult r).Successful[j]? =
        some (some { WebsocketUrl := (r.successful.get ⟨j, h⟩).websocketUrl
                     EthereumAddress := (r.successful.get ⟨j, h⟩).ethereumAddress })) ∧
    (∀ e ∈ (NewProxyClientResult r).Errors, e ≠ none) ∧
    (∀ q ∈ (NewProxyClientResult r).Successful, q ≠ none) ∧
    (NewProxyClientResult r).Errors = r.errors.map (fun e => some (NewProxyClientError e)) ∧
    (NewProxyClientResult r).Successful = r.successful.map (fun c =>
      some { WebsocketUrl := c.websocketUrl, EthereumAddress := c.ethereumAddress }) := by
  rw [NewProxyClientResult_eq]
  refine ⟨by simp, by simp, ?_, ?_, ?_, ?_, rfl, rfl⟩
  · intro i h
    simp [List.getElem?_eq_getElem h]
  · intro j h
    simp [List.getElem?_eq_getElem h, proxyOfC, NewProxy, GoString]
  · intro e he
    simp only [List.mem_map] at he
    obtain ⟨x, _, hx⟩ := he
    rw [← hx]
    exact Option.some_ne_none _
  · intro q hq
    simp only [List.mem_map] at hq
    obtain ⟨x, _, hx⟩ := hq
    rw [← hx]
    exact Option.some_ne_none _

/-! ## Construction -/

/-- C2: `NewProxyClient` returns either a client and no error, or no client and an
error; the error case is taken exactly when the result of the library's construction call
reports at least one error, and the error returned is then the conversion of the first
error of that result. -/
theorem NewProxyClient_atomic {σ : Type}
    (newWrapper : σ → String → String → σ × CProxyResult × Nat) (lib : σ) (a s : String) :
    (((NewProxyClient newWrapper lib a s).ret.1.isSome = true ∧
        (NewProxyClient newWrapper lib a s).ret.2 = none) ∨
      ((NewProxyClient newWrapper lib a s).ret.1 = none ∧
        (NewProxyClient newWrapper lib a s).ret.2.isSome = true)) ∧
    ((NewProxyClient newWrapper lib a s).ret.2.isSome = true ↔
      0 < (newWrapper lib (CString a) (CString s)).2.1.numErrors) ∧
    (∀ h : 0 < (newWrapper lib (CString a) (CString s)).2.1.numErrors,
      (NewProxyClient newWrapper lib a s).ret =
        (none, some (NewProxyClientError
          ((newWrapper lib (CString a) (CString s)).2.1.errors.get ⟨0, h⟩)))) := by
  by_cases h : 0 < (newWrapper lib (CString a) (CString s)).2.1.numErrors
  · have hret : (NewProxyClient newWrapper lib a s).ret =
        (none, some (NewProxyClientError
          ((newWrapper lib (CString a) (CString s)).2.1.errors.get ⟨0, h⟩))) := by
      simp only [NewProxyClient, gt_iff_lt, dif_pos h]
    refine ⟨Or.inr ?_, ?_, fun _ => hret⟩
    · rw [hret]; exact ⟨rfl, rfl⟩
    · rw [hret]; exact ⟨fun _ => h, fun _ => rfl⟩
  · have hret : (NewProxyClient newWrapper lib a s).ret =
        (some { ownEthereumAddress := a, streamPartId := s,
                clientHandle := (newWrapper lib (CString a) (CString s)).2.2 }, none) := by
      simp only [NewProxyClient, gt_iff_lt, dif_neg h]
    refine ⟨Or.inl ?_, ?_, fun h2 => absurd h2 h⟩
    · rw [hret]; exact ⟨rfl, rfl⟩
    · rw [hret]; exact ⟨fun h2 => (by cases h2), fun h2 => absurd h2 h⟩

/-! ## Publish -/

/-- C7: `Publish` called with an empty payload panics with an index out of range when it
takes `&data[0]`, whatever the signing key, before any call into the library; with a
non-empty payload it returns the converted result of the library. -/
theorem Publish_empty_payload_panics {σ : Type}
    (publishWrapper : σ → Nat → List (Fin 256) → Nat → Option String → σ × CProxyResult)
    (lib : σ) (p : ProxyClient) (key : String) :
    (p.Publish publishWrapper lib [] key).ret = .error (GoPanic.indexOutOfRange 0 0) ∧
    (p.Publish publishWrapper lib [] key).calls = [] ∧
    (∀ b bs, ∃ res, (p.Publish publishWrapper lib (b :: bs) key).ret = .ok res) := by
  refine ⟨?_, ?_, ?_⟩
  · by_cases hk : key = "" <;> simp [ProxyClient.Publish, addrOf, hk]
  · by_cases hk : key = "" <;> simp [ProxyClient.Publish, addrOf, hk]
  · intro b bs
    by_cases hk : key = "" <;> simp [ProxyClient.Publish, addrOf, hk]

/-! ## Release of library results -/

/-- C10: when the library's result reports an error, `NewProxyClient` and `Close` make
no call of `proxyClientResultDeleteWrapper`: the only wrapper each calls is the one that
produced the result, which is therefore never released.  When the result reports no error
they release it, once, as their last call. -/
theorem result_not_released_on_error {σ : Type}
    (newWrapper : σ → String → String → σ × CProxyResult × Nat)
    (deleteWrapper : σ → Nat → σ × CProxyResult)
    (lib : σ) (a s : String) (p : ProxyClient) :
    (0 < (newWrapper lib (CString a) (CString s)).2.1.numErrors →
      (NewProxyClient newWrapper lib a s).calls =
        [CCall.proxyClientNewWrapper (CString a) (CString s)]) ∧
    (0 < (deleteWrapper lib p.clientHandle).2.numErrors →
      (p.Close deleteWrapper lib).calls = [CCall.proxyClientDeleteWrapper p.clientHandle]) ∧
    ((newWrapper lib (CString a) (CString s)).2.1.numErrors = 0 →
      (NewProxyClient newWrapper lib a s).calls =
        [CCall.proxyClientNewWrapper (CString a) (CString s),
         CCall.proxyClientResultDeleteWrapper (newWrapper lib (CString a) (CString s)).2.1]) ∧
    ((deleteWrapper lib p.clientHandle).2.numErrors = 0 →
      (p.Close deleteWrapper lib).calls =
        [CCall.proxyClientDeleteWrapper p.clientHandle,
         CCall.proxyClientResultDeleteWrapper (deleteWrapper lib p.clientHandle).2]) := by
  refine ⟨?_, ?_, ?_, ?_⟩
  · intro h
    simp only [NewProxyClient, gt_iff_lt, dif_pos h]
  · intro h
    simp only [ProxyClient.Close, gt_iff_lt, dif_pos h]
  · intro h
    have h2 : ¬ 0 < (newWrapper lib (CString a) (CString s)).2.1.numErrors := by omega
    simp only [NewProxyClient, gt_iff_lt, dif_neg h2]
    rfl
  · intro h
    have h2 : ¬ 0 < (deleteWrapper lib p.clientHandle).2.numErrors := by omega
    simp only [ProxyClient.Close, gt_iff_lt, dif_neg h2]
    rfl

/-! ## Connect -/

theorem Connect_eq {σ : Type}
    (connectWrapper : σ → Nat → Option (List CProxy) → Nat → σ × CProxyResult)
    (lib : σ) (p : ProxyClient) (proxies : List Proxy) :
    (p.Connect connectWrapper lib proxies).ret = .ok (NewProxyClientResult
      (connectWrapper lib p.clientHandle
        (if proxies = [] then none else some (proxies.map cProxyOf)) proxies.length).2) ∧
    (p.Connect connectWrapper lib proxies).lib =
      (connectWrapper lib p.clientHandle
        (if proxies = [] then none else some (proxies.map cProxyOf)) proxies.length).1 ∧
    (p.Connect connectWrapper lib proxies).calls =
      [CCall.proxyClientConnectWrapper p.clientHandle
        (if proxies = [] then none else some (proxies.map cProxyOf)) proxies.length,
       CCall.proxyClientResultDeleteWrapper (connectWrapper lib p.clientHandle
        (if proxies = [] then none else some (proxies.map cProxyOf)) proxies.length).2] := by
  cases proxies with
  | nil => simp [ProxyClient.Connect]
  | cons q qs =>
    have hfill : fillProxyArray (q :: qs) = (q :: qs).map cProxyOf := fillProxyArray_eq _
    simp [ProxyClient.Connect, hfill, addrOf]

theorem pick_cons {α : Type} (b : Bool) (x : α) (xs : List α) (m : Bool) (ms : List Bool) :
    pick b (x :: xs) (m :: ms) = if m = b then x :: pick b xs ms else pick b xs ms := by
  by_cases hm : m = b <;> simp [pick, List.filter_cons, hm]

theorem pick_map {α β : Type} (f : α → β) (b : Bool) (xs : List α) (mask : List Bool) :
    pick b (xs.map f) mask = (pick b xs mask).map f := by
  induction xs generalizing mask with
  | nil => simp [pick]
  | cons x xs ih =>
    cases mask with
    | nil => simp [pick]
    | cons m ms =>
      rw [List.map_cons, pick_cons, pick_cons, ih ms]
      by_cases hm : m = b <;> simp [hm]

theorem pick_true_of_pick_false_nil {α : Type} (xs : List α) (mask : List Bool)
    (hlen : mask.length = xs.length) (h : pick false xs mask = []) :
    pick true xs mask = xs := by
  induction xs generalizing mask with
  | nil => simp [pick]
  | cons x xs ih =>
    cases mask with
    | nil => simp at hlen
    | cons m ms =>
      rw [pick_cons] at h ⊢
      cases m with
      | false => simp at h
      | true =>
        have hlen2 : ms.length = xs.length := by simpa using hlen
        have h2 : pick false xs ms = [] := by simpa using h
        simp [ih ms hlen2 h2]

theorem attemptAll_split (T : Transport) (t : Nat) (es : List CProxy) :
    ∃ mask : List Bool, mask.length = es.length ∧
      (attemptAll T t es).2.1.map (fun e => e.proxy) = (pick true es mask).map some ∧
      (attemptAll T t es).2.2 = pick false es mask := by
  induction es generalizing t with
  | nil => exact ⟨[], rfl, rfl, rfl⟩
  | cons e es ih =>
    cases hatt : attempt T t e with
    | mk r t1 =>
      obtain ⟨mask, hlen, herr, hsucc⟩ := ih t1
      have hproxy : ∀ err, r = some err → err.proxy = some e := by
        intro err hr
        subst hr
        unfold attempt at hatt
        split at hatt
        · cases hatt; rfl
        · split at hatt
          · cases hatt; rfl
          · split at hatt
            · cases hatt
            · cases hatt; rfl
      cases r with
      | some err =>
        refine ⟨true :: mask, by simp [hlen], ?_, ?_⟩
        · rw [pick_cons]
          simp only [attemptAll, hatt, List.map_cons, herr, hproxy err rfl]
          simp
        · rw [pick_cons]
          simp only [attemptAll, hatt, hsucc]
          simp
      | none =>
        refine ⟨false :: mask, by simp [hlen], ?_, ?_⟩
        · rw [pick_cons]
          simp only [attemptAll, hatt, herr]
          simp
        · rw [pick_cons]
          simp only [attemptAll, hatt, hsucc]
          simp

theorem CString_eq_self (s : String) (h : NUL ∉ s.toList) : CString s = s := by
  unfold CString
  have : s.toList.takeWhile (fun c => c != NUL) = s.toList := by
    rw [List.takeWhile_eq_self_iff]
    intro c hc
    have : c ≠ NUL := fun hcn => h (hcn ▸ hc)
    simpa using this
  rw [this]
  rfl

theorem cImage_eq_self (q : Proxy) (hu : NUL ∉ q.WebsocketUrl.toList)
    (ha : NUL ∉ q.EthereumAddress.toList) : cImage q = q := by
  simp [cImage, proxyOfC, cProxyOf, NewProxy, GoString, CString_eq_self _ hu,
    CString_eq_self _ ha]

theorem proxyClientDelete_not_live (st : LibState) (handle : Nat) :
    (proxyClientDelete st handle).1.live handle = false := by
  unfold proxyClientDelete
  cases hl : st.live handle
  · simpa using hl
  · simp [LibState.live, List.any_filter]

theorem proxyClientNew_live (st : LibState) (a s : String)
    (h : (proxyClientNew st a s).2.1.numErrors = 0) :
    (proxyClientNew st a s).1.live (proxyClientNew st a s).2.2 = true := by
  unfold proxyClientNew at h ⊢
  split
  · rename_i h1; simp [h1] at h
  · split
    · rename_i h1 h2; simp [h1, h2] at h
    · simp [LibState.live]

/-- C1 (as stated, refuted): on a transport where every endpoint is unreachable, `Connect`
with the single endpoint `E0` whose URL is `ws://localhost:0` followed by a NUL character
returns one error whose proxy has the URL `ws://localhost:0`: `E0` itself is neither the
proxy of an error nor among the successes. -/
theorem Connect_endpoint_with_NUL_not_reported :
    (firstClient.Connect (proxyClientConnect unreachable) oneClient
      [{ WebsocketUrl := "ws://localhost:0\x00"
         EthereumAddress := "0x1234567890123456789012345678901234567890" }]).ret =
    .ok { Errors := [some { Message := ERROR_PROXY_CONNECTION_FAILED
                            Code := ERROR_PROXY_CONNECTION_FAILED
                            Proxy := some
                              { WebsocketUrl := "ws://localhost:0"
                                EthereumAddress :=
                                  "0x1234567890123456789012345678901234567890" } }]
          Successful := [] } ∧
    (NewProxy "ws://localhost:0\x00" "0x1234567890123456789012345678901234567890").Equals
      (NewProxy "ws://localhost:0" "0x1234567890123456789012345678901234567890") = false := by
  decide

/-- C1 (amended): for a client whose handle is live in the library and a non-empty list of
endpoints, `Connect` returns a result in which every endpoint, as the library received it
(each field cut before its first NUL character), is in exactly one of `Errors` (as the
proxy of a non-nil error) or `Successful`: a mask with one flag per endpoint selects, in
the order supplied, the proxies of `Errors` and the entries of `Successful`.  When nothing
succeeds, `Errors` has one entry per endpoint and entry `i` carries endpoint `i`.  For
endpoints whose fields contain no NUL character what the library received is the endpoint
itself. -/
theorem Connect_ordered_split (T : Transport) (st : LibState) (p : ProxyClient)
    (proxies : List Proxy) (hne : proxies ≠ []) (hlive : st.live p.clientHandle = true) :
    ∃ (res : ProxyClientResult) (mask : List Bool),
      (p.Connect (proxyClientConnect T) st proxies).ret = .ok res ∧
      mask.length = proxies.length ∧
      res.Errors.map (fun e => e.bind (fun err => err.Proxy)) =
        (pick true (proxies.map cImage) mask).map some ∧
      res.Successful = (pick false (proxies.map cImage) mask).map some ∧
      (res.Successful = [] →
        res.Errors.length = proxies.length ∧
        res.Errors.map (fun e => e.bind (fun err => err.Proxy)) =
          (proxies.map cImage).map some) ∧
      ((∀ q ∈ proxies, NUL ∉ q.WebsocketUrl.toList ∧ NUL ∉ q.EthereumAddress.toList) →
        proxies.map cImage = proxies) := by
  obtain ⟨mask, hlen, herr, hsucc⟩ := attemptAll_split T st.clock (proxies.map cProxyOf)
  have hlen2 : mask.length = proxies.length := by simpa using hlen
  have hn : ¬ proxies.length = 0 := fun h => hne (List.length_eq_zero.mp h)
  have hlib : (proxyClientConnect T st p.clientHandle
      (if proxies = [] then none else some (proxies.map cProxyOf)) proxies.length).2 =
      { errors := (attemptAll T st.clock (proxies.map cProxyOf)).2.1
        successful := (attemptAll T st.clock (proxies.map cProxyOf)).2.2 } := by
    have htake : (proxies.map cProxyOf).take proxies.length = proxies.map cProxyOf := by
      rw [List.take_of_length_le]; simp
    simp [proxyClientConnect, hlive, hn, hne, htake]
  have hpick : ∀ b, pick b (proxies.map cImage) mask =
      (pick b (proxies.map cProxyOf) mask).map proxyOfC := by
    intro b
    rw [← pick_map, List.map_map]
    rfl
  have hE : (NewProxyClientResult
      { errors := (attemptAll T st.clock (proxies.map cProxyOf)).2.1
        successful := (attemptAll T st.clock (proxies.map cProxyOf)).2.2 }).Errors.map
        (fun e => e.bind (fun err => err.Proxy)) =
      (pick true (proxies.map cImage) mask).map some := by
    rw [NewProxyClientResult_eq]
    have hmap : ∀ l : List CError,
        (l.map (fun e => some (NewProxyClientError e))).map
          (fun e => e.bind (fun err => err.Proxy)) =
        (l.map (fun e => e.proxy)).map (fun o => o.map proxyOfC) := by
      intro l
      rw [List.map_map, List.map_map]
      apply List.map_congr_left
      intro e _
      cases hp : e.proxy <;> simp [NewProxyClientError, hp, proxyOfC]
    simp only
    rw [hmap, herr, hpick, List.map_map, List.map_map]
    rfl
  have hS : (NewProxyClientResult
      { errors := (attemptAll T st.clock (proxies.map cProxyOf)).2.1
        successful := (attemptAll T st.clock (proxies.map cProxyOf)).2.2 }).Successful =
      (pick false (proxies.map cImage) mask).map some := by
    rw [NewProxyClientResult_eq]
    simp only
    rw [hsucc, hpick, List.map_map]
    rfl
  refine ⟨_, mask, ?_, hlen2, hE, hS, ?_, ?_⟩
  · rw [(Connect_eq (proxyClientConnect T) st p proxies).1, hlib]
  · intro hnil
    have hpf : pick false (proxies.map cImage) mask = [] := by
      rw [hS] at hnil
      exact List.map_eq_nil_iff.mp hnil
    have hpt := pick_true_of_pick_false_nil (proxies.map cImage) mask (by simpa using hlen2) hpf
    have hall := hE
    rw [hpt] at hall
    refine ⟨?_, hall⟩
    have := congrArg List.length hall
    simpa using this
  · intro hnul
    calc proxies.map cImage = proxies.map id := by
          apply List.map_congr_left
          intro q hq
          exact cImage_eq_self q (hnul q hq).1 (hnul q hq).2
      _ = proxies := List.map_id _

/-- Witness of C1 (amended): the three unreachable endpoints of the test, on the client of
handle `1`. -/
theorem Connect_ordered_split_witness :
    ∃ (res : ProxyClientResult) (mask : List Bool),
      (firstClient.Connect (proxyClientConnect unreachable) oneClient
        [NewProxy "ws://localhost:0" "0x1234567890123456789012345678901234567890",
         NewProxy "ws://localhost:1" "0x1234567890123456789012345678901234567892",
         NewProxy "ws://localhost:2" "0x1234567890123456789012345678901234567893"]).ret
        = .ok res ∧
      mask.length = 3 ∧
      res.Errors.map (fun e => e.bind (fun err => err.Proxy)) =
        (pick true
          ([NewProxy "ws://localhost:0" "0x1234567890123456789012345678901234567890",
            NewProxy "ws://localhost:1" "0x1234567890123456789012345678901234567892",
            NewProxy "ws://localhost:2" "0x1234567890123456789012345678901234567893"].map
            cImage) mask).map some ∧
      res.Successful =
        (pick false
          ([NewProxy "ws://localhost:0" "0x1234567890123456789012345678901234567890",
            NewProxy "ws://localhost:1" "0x1234567890123456789012345678901234567892",
            NewProxy "ws://localhost:2" "0x1234567890123456789012345678901234567893"].map
            cImage) mask).map some := by
  obtain ⟨res, mask, h1, h2, h3, h4, _, _⟩ :=
    Connect_ordered_split unreachable oneClient firstClient
      [NewProxy "ws://localhost:0" "0x1234567890123456789012345678901234567890",
       NewProxy "ws://localhost:1" "0x1234567890123456789012345678901234567892",
       NewProxy "ws://localhost:2" "0x1234567890123456789012345678901234567893"]
      (by decide) (by decide)
  exact ⟨res, mask, h1, h2, h3, h4⟩

/-! ## The operations in terms of the first error of the library's result -/

theorem some_get_zero_eq_head? {α : Type} (l : List α) (h : 0 < l.length) :
    some (l.get ⟨0, h⟩) = l.head? := by
  cases l with
  | nil => simp at h
  | cons x xs => rfl

theorem NewProxyClient_eq {σ : Type}
    (newWrapper : σ → String → String → σ × CProxyResult × Nat) (lib : σ) (a s : String) :
    (NewProxyClient newWrapper lib a s).ret =
      (match (newWrapper lib (CString a) (CString s)).2.1.errors.head? with
       | some e => (none, some (NewProxyClientError e))
       | none => (some { ownEthereumAddress := a, streamPartId := s
                         clientHandle := (newWrapper lib (CString a) (CString s)).2.2 },
                  none)) ∧
    (NewProxyClient newWrapper lib a s).lib = (newWrapper lib (CString a) (CString s)).1 := by
  by_cases h : 0 < (newWrapper lib (CString a) (CString s)).2.1.numErrors
  · simp only [NewProxyClient, gt_iff_lt, dif_pos h]
    rw [← some_get_zero_eq_head? _ h]
    exact ⟨rfl, trivial⟩
  · simp only [NewProxyClient, gt_iff_lt, dif_neg h]
    have hnil : (newWrapper lib (CString a) (CString s)).2.1.errors = [] :=
      List.length_eq_zero.mp (by simp only [CProxyResult.numErrors] at h; omega)
    rw [hnil]
    exact ⟨rfl, trivial⟩

theorem Close_eq {σ : Type} (deleteWrapper : σ → Nat → σ × CProxyResult)
    (lib : σ) (p : ProxyClient) :
    (p.Close deleteWrapper lib).ret =
      (deleteWrapper lib p.clientHandle).2.errors.head?.map NewProxyClientError ∧
    (p.Close deleteWrapper lib).lib = (deleteWrapper lib p.clientHandle).1 := by
  by_cases h : 0 < (deleteWrapper lib p.clientHandle).2.numErrors
  · simp only [ProxyClient.Close, gt_iff_lt, dif_pos h]
    rw [← some_get_zero_eq_head? _ h]
    exact ⟨rfl, trivial⟩
  · simp only [ProxyClient.Close, gt_iff_lt, dif_neg h]
    have hnil : (deleteWrapper lib p.clientHandle).2.errors = [] :=
      List.length_eq_zero.mp (by simp only [CProxyResult.numErrors] at h; omega)
    rw [hnil]
    exact ⟨rfl, trivial⟩

theorem result_calls_of_no_error {σ : Type} (deleteWrapper : σ → Nat → σ × CProxyResult)
    (lib : σ) (p : ProxyClient) (h : (deleteWrapper lib p.clientHandle).2.numErrors = 0) :
    (p.Close deleteWrapper lib).calls =
      [CCall.proxyClientDeleteWrapper p.clientHandle,
       CCall.proxyClientResultDeleteWrapper (deleteWrapper lib p.clientHandle).2] := by
  have h2 : ¬ 0 < (deleteWrapper lib p.clientHandle).2.numErrors := by omega
  simp only [ProxyClient.Close, gt_iff_lt, dif_neg h2]
  rfl

/-! ## Construction on the library -/

/-- C3 (as stated, refuted): the address made of a valid address followed by a NUL
character is not `0x` followed by exactly 40 hexadecimal characters, the stream part id is
valid, and `NewProxyClient` returns a client and no error. -/
theorem NewProxyClient_accepts_address_with_NUL :
    ValidateAddress "0x1234567890123456789012345678901234567890\x00" = false ∧
    ValidateStreamPartId "0xa000000000000000000000000000000000000000#01" = true ∧
    (NewProxyClient proxyClientNew LibState.init
        "0x1234567890123456789012345678901234567890\x00"
        "0xa000000000000000000000000000000000000000#01").ret =
      (some { ownEthereumAddress := "0x1234567890123456789012345678901234567890\x00"
              streamPartId := "0xa000000000000000000000000000000000000000#01"
              clientHandle := 1 }, none) := by
  decide

/-- C3 (amended): for every string `a` whose part before its first NUL character is not
`0x` followed by exactly 40 hexadecimal characters, and every stream part id `s`,
`NewProxyClient(a, s)` returns a nil client and an error whose code is
`INVALID_ETHEREUM_ADDRESS`, with no proxy, and registers no client in the library.  For a
string with no NUL character that part is the whole string. -/
theorem NewProxyClient_invalid_address (st : LibState) (a s : String)
    (h : ValidateAddress (CString a) = false) :
    (∃ e : ProxyClientError,
      (NewProxyClient proxyClientNew st a s).ret = (none, some e) ∧
      e.Code = ERROR_INVALID_ETHEREUM_ADDRESS ∧ e.Proxy = none) ∧
    (NewProxyClient proxyClientNew st a s).lib = st ∧
    (NUL ∉ a.toList → CString a = a) := by
  have hnew : proxyClientNew st (CString a) (CString s) =
      (st, { errors := [globalError ERROR_INVALID_ETHEREUM_ADDRESS], successful := [] }, 0) := by
    simp [proxyClientNew, h]
  refine ⟨⟨NewProxyClientError (globalError ERROR_INVALID_ETHEREUM_ADDRESS), ?_, rfl, rfl⟩,
    ?_, CString_eq_self a⟩
  · rw [(NewProxyClient_eq proxyClientNew st a s).1, hnew]
    rfl
  · rw [(NewProxyClient_eq proxyClientNew st a s).2, hnew]

/-- Witness of C3 (amended): the malformed address of the test. -/
theorem NewProxyClient_invalid_address_witness :
    ValidateAddress (CString "INVALID_ETHEREUM_ADDRESS") = false ∧
    ((∃ e : ProxyClientError,
      (NewProxyClient proxyClientNew LibState.init "INVALID_ETHEREUM_ADDRESS"
        "0xa000000000000000000000000000000000000000#01").ret = (none, some e) ∧
      e.Code = ERROR_INVALID_ETHEREUM_ADDRESS ∧ e.Proxy = none) ∧
    (NewProxyClient proxyClientNew LibState.init "INVALID_ETHEREUM_ADDRESS"
        "0xa000000000000000000000000000000000000000#01").lib = LibState.init ∧
    (NUL ∉ "INVALID_ETHEREUM_ADDRESS".toList →
      CString "INVALID_ETHEREUM_ADDRESS" = "INVALID_ETHEREUM_ADDRESS")) :=
  ⟨by decide, NewProxyClient_invalid_address LibState.init "INVALID_ETHEREUM_ADDRESS"
    "0xa000000000000000000000000000000000000000#01" (by decide)⟩

/-! ## Connect with no endpoint -/

/-- C4: a client that `NewProxyClient` returned has a live handle in the library, and on
every library state where its handle is live, `Connect` with the empty list returns
exactly one error, of code `NO_PROXIES_DEFINED` and with no proxy, and no success; the
call passes a nil array and the count `0` to the library, then releases the result. -/
theorem Connect_no_proxies (T : Transport) (st : LibState) (a s : String) (c : ProxyClient)
    (hc : (NewProxyClient proxyClientNew st a s).ret.1 = some c) :
    (NewProxyClient proxyClientNew st a s).lib.live c.clientHandle = true ∧
    ∀ st2 : LibState, st2.live c.clientHandle = true →
      (∃ e : ProxyClientError,
        (c.Connect (proxyClientConnect T) st2 []).ret =
          .ok { Errors := [some e], Successful := [] } ∧
        e.Code = ERROR_NO_PROXIES_DEFINED ∧ e.Proxy = none) ∧
      (c.Connect (proxyClientConnect T) st2 []).calls =
        [CCall.proxyClientConnectWrapper c.clientHandle none 0,
         CCall.proxyClientResultDeleteWrapper
           { errors := [globalError ERROR_NO_PROXIES_DEFINED], successful := [] }] := by
  constructor
  · by_cases hz : 0 < (proxyClientNew st (CString a) (CString s)).2.1.numErrors
    · simp [NewProxyClient, hz] at hc
    · have hz0 : (proxyClientNew st (CString a) (CString s)).2.1.numErrors = 0 := by omega
      have hlive := proxyClientNew_live st (CString a) (CString s) hz0
      simp only [NewProxyClient, gt_iff_lt, dif_neg hz] at hc ⊢
      have hhandle : c.clientHandle = (proxyClientNew st (CString a) (CString s)).2.2 := by
        cases hc; rfl
      rw [hhandle]
      exact hlive
  · intro st2 hlive
    have hlib : proxyClientConnect T st2 c.clientHandle none 0 =
        (st2, { errors := [globalError ERROR_NO_PROXIES_DEFINED], successful := [] }) := by
      simp [proxyClientConnect, hlive]
    obtain ⟨hret, _, hcalls⟩ := Connect_eq (proxyClientConnect T) st2 c []
    simp only [if_true, List.length_nil, hlib] at hret hcalls
    refine ⟨⟨NewProxyClientError (globalError ERROR_NO_PROXIES_DEFINED), ?_, rfl, rfl⟩, hcalls⟩
    rw [hret, NewProxyClientResult_eq]
    rfl

/-- Witness of C4: the client of the test, constructed on the freshly initialised
library. -/
theorem Connect_no_proxies_witness :
    (NewProxyClient proxyClientNew LibState.init "0x1234567890123456789012345678901234567890"
      "0xa000000000000000000000000000000000000000#01").ret.1 = some firstClient ∧
    ∃ e : ProxyClientError,
      (firstClient.Connect (proxyClientConnect unreachable) oneClient []).ret =
        .ok { Errors := [some e], Successful := [] } ∧
      e.Code = ERROR_NO_PROXIES_DEFINED ∧ e.Proxy = none :=
  ⟨by decide,
   ((Connect_no_proxies unreachable LibState.init "0x1234567890123456789012345678901234567890"
      "0xa000000000000000000000000000000000000000#01" firstClient (by decide)).2
      oneClient (by decide)).1⟩

/-! ## Close -/

/-- C5: for every client and library state, `Close` called a second time after a first
`Close` returns nil.  The first call leaves the client's handle deleted in the library;
the second call forwards the same handle, the library reports no error, and the library's
table is left as the first call left it.  `Close` returns nil exactly when the library's
delete result reports no error. -/
theorem second_Close_returns_nil (st : LibState) (p : ProxyClient) :
    (p.Close proxyClientDelete (p.Close proxyClientDelete st).lib).ret = none ∧
    (p.Close proxyClientDelete st).lib.live p.clientHandle = false ∧
    (p.Close proxyClientDelete (p.Close proxyClientDelete st).lib).lib =
      (p.Close proxyClientDelete st).lib ∧
    (p.Close proxyClientDelete (p.Close proxyClientDelete st).lib).calls =
      [CCall.proxyClientDeleteWrapper p.clientHandle,
       CCall.proxyClientResultDeleteWrapper { errors := [], successful := [] }] ∧
    ((p.Close proxyClientDelete st).ret = none ↔
      (proxyClientDelete st p.clientHandle).2.numErrors = 0) := by
  have hlib := (Close_eq proxyClientDelete st p).2
  have hret := (Close_eq proxyClientDelete st p).1
  have hdead := proxyClientDelete_not_live st p.clientHandle
  have hsecond : proxyClientDelete (proxyClientDelete st p.clientHandle).1 p.clientHandle =
      ((proxyClientDelete st p.clientHandle).1, { errors := [], successful := [] }) := by
    generalize (proxyClientDelete st p.clientHandle).1 = st1 at hdead ⊢
    simp [proxyClientDelete, hdead]
  have hiff : (p.Close proxyClientDelete st).ret = none ↔
      (proxyClientDelete st p.clientHandle).2.numErrors = 0 := by
    rw [hret]
    simp only [CProxyResult.numErrors]
    generalize (proxyClientDelete st p.clientHandle).2.errors = l
    cases l <;> simp
  refine ⟨?_, ?_, ?_, ?_, hiff⟩
  · rw [(Close_eq proxyClientDelete _ p).1, hlib, hsecond]
    rfl
  · rw [hlib]
    exact hdead
  · rw [(Close_eq proxyClientDelete _ p).2, hlib, hsecond]
  · have hz : (proxyClientDelete (p.Close proxyClientDelete st).lib p.clientHandle).2.numErrors
        = 0 := by
      rw [hlib, hsecond]
      rfl
    have hcalls := (result_calls_of_no_error proxyClientDelete
      (p.Close proxyClientDelete st).lib p hz)
    rw [hcalls, hlib, hsecond]

/-- Witness of C10: the construction with the malformed address of the test obtains a
result with one error and calls no wrapper after `proxyClientNewWrapper`. -/
theorem result_not_released_on_error_witness :
    0 < (proxyClientNew LibState.init (CString "INVALID_ETHEREUM_ADDRESS")
          (CString "0xa000000000000000000000000000000000000000#01")).2.1.numErrors ∧
    (NewProxyClient proxyClientNew LibState.init "INVALID_ETHEREUM_ADDRESS"
        "0xa000000000000000000000000000000000000000#01").calls =
      [CCall.proxyClientNewWrapper (CString "INVALID_ETHEREUM_ADDRESS")
        (CString "0xa000000000000000000000000000000000000000#01")] :=
  ⟨by decide,
   (result_not_released_on_error proxyClientNew proxyClientDelete LibState.init
      "INVALID_ETHEREUM_ADDRESS" "0xa000000000000000000000000000000000000000#01"
      firstClient).1 (by decide)⟩

end StreamrProxyClient
